import Mathlib

/-!
Shallow embedding of `src/server/controllers/ai.js` (Nexterm AI controller)
and verification of the specification's claims about it.

Strings are embedded as `List Char` for the response-normalization logic
(`parseAIResponse`), mirroring JavaScript string primitives (`trim`,
`split("\n")`, `toLowerCase`, `startsWith`, regex matching) character by
character.  Settings records, provider contracts and transport outcomes are
embedded as explicit data; each outbound `fetch` is abstracted by a
`FetchOutcome` value describing what the transport did (threw, or returned a
response with an ok-flag, a status and a parsed JSON body).
-/

namespace NextermAI

/-! ## JavaScript string primitives on `List Char` -/

/-- The ECMAScript whitespace class `\s` (also the set removed by
`String.prototype.trim`). -/
def isWs (c : Char) : Bool :=
  c = ' ' || c = '\t' || c = '\n' || c = '\r' || c = '\x0b' || c = '\x0c' ||
  c = '\u00a0' || c = '\u1680' || ('\u2000' ≤ c && c ≤ '\u200a') ||
  c = '\u2028' || c = '\u2029' || c = '\u202f' || c = '\u205f' ||
  c = '\u3000' || c = '\ufeff'

/-- Characters removed by a trailing `replace(/[\r\n]+$/, "")`. -/
def isNlCh (c : Char) : Bool := c = '\r' || c = '\n'

/-- Characters matched by `.` in a JavaScript regex without the `s` flag
(everything except line terminators). -/
def isDotCh (c : Char) : Bool :=
  !(c = '\n' || c = '\r' || c = '\u2028' || c = '\u2029')

/-- ASCII lowercasing of a string, embedding `toLowerCase` (all characters
relevant to the controller's comparisons are ASCII). -/
def lowerL (s : List Char) : List Char := s.map Char.toLower

/-- `s.startsWith(p)`: `startsWithL p s` is true when `p` is an initial
segment of `s`. -/
def startsWithL : List Char → List Char → Bool
  | [], _ => true
  | _ :: _, [] => false
  | a :: p, b :: s => a = b && startsWithL p s

/-- `s.includes(p)`: `p` occurs contiguously somewhere in `s`. -/
def hasSub (p : List Char) : List Char → Bool
  | [] => startsWithL p []
  | c :: t => startsWithL p (c :: t) || hasSub p t

/-- Drop a maximal run satisfying `p` from the right end of a list. -/
def rdropWhileL (p : Char → Bool) (s : List Char) : List Char :=
  (List.dropWhile p s.reverse).reverse

/-- `String.prototype.trim`: strip leading and trailing whitespace. -/
def trimL (s : List Char) : List Char :=
  rdropWhileL isWs (List.dropWhile isWs s)

/-- `replace(/[\r\n]+$/, "")`: strip trailing CR/LF characters. -/
def rstripNl (s : List Char) : List Char := rdropWhileL isNlCh s

/-- `s.split("\n")`, embedding the JavaScript semantics (an empty string
splits to `[""]`, a trailing separator yields a trailing empty piece). -/
def splitNl : List Char → List (List Char)
  | [] => [[]]
  | c :: t =>
    if c = '\n' then [] :: splitNl t
    else
      match splitNl t with
      | h :: r => (c :: h) :: r
      | [] => [[c]]

/-! ## The fence-stripping replaces of `parseAIResponse` (source line 334)

`response.replace(/((?:bash|sh|shell)? after three backticks)\n?/g, "")`
followed by `replace(/(three backticks)/g, "")`.  The regex alternation is
matched in source order (`bash`, then `sh`, then `shell`; `sh` therefore
shadows `shell`), and each optional piece is taken greedily.  Both scans are
written with explicit fuel (the input length) so that they compute by kernel
reduction; every step consumes at least one character, so the fuel is never
exhausted. -/

/-- Three backticks, the fence marker. -/
def ticks : List Char := ['\x60', '\x60', '\x60']

def bashTag : List Char := ['b', 'a', 's', 'h']

def shTag : List Char := ['s', 'h']

def shellTag : List Char := ['s', 'h', 'e', 'l', 'l']

/-- Length of the first-replace regex match at the head of `s`, assuming `s`
starts with the fence marker. -/
def fenceLen (s : List Char) : Nat :=
  let r := s.drop 3
  let langLen :=
    if startsWithL bashTag r then 4
    else if startsWithL shTag r then 2
    else if startsWithL shellTag r then 5
    else 0
  let nlLen :=
    match r.drop langLen with
    | '\n' :: _ => 1
    | _ => 0
  3 + langLen + nlLen

/-- Fuelled global-replace scan for the first fence regex. -/
def stripFenceF : Nat → List Char → List Char
  | 0, s => s
  | _ + 1, [] => []
  | n + 1, c :: t =>
    if startsWithL ticks (c :: t) then
      stripFenceF n ((c :: t).drop (fenceLen (c :: t)))
    else c :: stripFenceF n t

/-- First replace of source line 334: remove fence openings with an optional
language tag and an optional following newline. -/
def stripFence (s : List Char) : List Char := stripFenceF s.length s

/-- Fuelled global-replace scan deleting every remaining fence marker. -/
def stripTicksF : Nat → List Char → List Char
  | 0, s => s
  | _ + 1, [] => []
  | n + 1, c :: t =>
    if startsWithL ticks (c :: t) then stripTicksF n ((c :: t).drop 3)
    else c :: stripTicksF n t

/-- Second replace of source line 334: delete every `ticks` occurrence. -/
def stripTicks (s : List Char) : List Char := stripTicksF s.length s

/-- Both replaces in order: the `clean` value of `parseAIResponse`. -/
def cleanOf (s : List Char) : List Char := stripTicks (stripFence s)

/-! ## The `Response:` regex of `parseAIResponse` (source line 336)

`clean.match(/Response:\s*(.+?)(?:\n|$)/i)` — find the leftmost position
where the whole pattern matches and return capture group 1.  After the
case-insensitive literal, `\s*` is greedy (backtracking downwards), `(.+?)`
is lazy (growing upwards), and the group is closed by a newline or the end
of input. -/

/-- The literal of the regex, lowercase. -/
def rspPat : List Char := ['r', 'e', 's', 'p', 'o', 'n', 's', 'e', ':']

/-- The `user:` label used by the `startsWith` checks. -/
def usrPat : List Char := ['u', 's', 'e', 'r', ':']

/-- Lazy `(.+?)(?:\n|$)` at a fixed start: the shortest nonempty run of
dot-characters whose successor is a newline or the end.  Fails (`none`) when
the run is cut off by a non-dot, non-newline terminator such as `\r`. -/
def goDot : List Char → Option (List Char)
  | [] => none
  | c :: rest =>
    if isDotCh c then
      match rest with
      | [] => some [c]
      | d :: _ =>
        if d = '\n' then some [c]
        else (goDot rest).map (fun g => c :: g)
    else none

/-- Backtracking over the greedy `\s*`: try dropping `j` characters, largest
`j` first. -/
def msdLoop (t : List Char) : Nat → Option (List Char)
  | 0 => goDot t
  | j + 1 =>
    match goDot (t.drop (j + 1)) with
    | some g => some g
    | none => msdLoop t j

/-- Match `\s*(.+?)(?:\n|$)` against the text following the literal. -/
def matchSpaceDot (t : List Char) : Option (List Char) :=
  msdLoop t (t.takeWhile isWs).length

/-- Leftmost full match of `/Response:\s*(.+?)(?:\n|$)/i`; returns capture
group 1.  On a partial match (literal found, rest fails) the scan resumes at
the next character, as a regex engine does. -/
def findResp : List Char → Option (List Char)
  | [] => none
  | c :: t =>
    if startsWithL rspPat (lowerL (c :: t)) then
      match matchSpaceDot ((c :: t).drop 9) with
      | some g => some g
      | none => findResp t
    else findResp t

/-! ## `parseAIResponse` (source lines 331-350) -/

/-- `"echo 'No command generated'"`, the fallback for absent input and for an
empty final trim. -/
def phNoCommand : List Char := ("echo 'No command generated'").toList

/-- `"echo 'Command not properly generated'"`, the fallback for echoed
conversation structure. -/
def phNotProper : List Char := ("echo 'Command not properly generated'").toList

/-- Source line 341: `clean.split("\n").map(l => l.trim()).filter(Boolean)`. -/
def linesOf (clean : List Char) : List (List Char) :=
  ((splitNl clean).map trimL).filter (fun l => !l.isEmpty)

/-- The predicate of source line 343: a line that does not start with a role
label after lowercasing. -/
def goodLine (l : List Char) : Bool :=
  !(startsWithL usrPat (lowerL l)) && !(startsWithL rspPat (lowerL l))

/-- Source lines 347-349, the common tail after the multi-line block. -/
def tailPart (clean : List Char) : List Char :=
  if startsWithL rspPat (lowerL clean) then phNotProper
  else
    let r := rstripNl (trimL clean)
    if r.isEmpty then phNoCommand else r

/-- `parseAIResponse` (source lines 331-350).  `none` stands for a missing
(`undefined`/`null`) argument; the falsy check of line 332 also catches the
empty string. -/
def parseAIResponse (o : Option (List Char)) : List Char :=
  match o with
  | none => phNoCommand
  | some response =>
    if response.isEmpty then phNoCommand
    else
      let clean := cleanOf response
      match findResp clean with
      | some g => rstripNl (trimL g)
      | none =>
        if startsWithL usrPat (lowerL clean) then phNotProper
        else
          let ls := linesOf clean
          if 1 < ls.length then
            match ls.find? goodLine with
            | some cmd =>
              if cmd.isEmpty then tailPart clean else rstripNl (trimL cmd)
            | none => tailPart clean
          else tailPart clean

/-! ## Stored settings and provider contracts (source lines 1-70) -/

/-- The persisted `AISettings` record.  `none` stands for a JavaScript
`null`/`undefined` field value. -/
structure AISettingsRec where
  enabled : Bool
  provider : Option String
  model : Option String
  apiKey : Option String
  apiUrl : Option String
deriving DecidableEq, Repr

/-- JavaScript falsiness of a string-or-null field: `null`, `undefined` and
the empty string are falsy. -/
def strFalsy : Option String → Bool
  | none => true
  | some s => s = ""

def OPENAI_BASE_URL : String := "https://api.openai.com/v1"

def DEFAULT_OLLAMA_URL : String := "http://localhost:11434"

def pOpenai : String := "openai"

def pCompat : String := "openai_compatible"

def pOllama : String := "ollama"

/-- Strip every trailing `/` from a URL string (`replace(/\/+$/, "")`). -/
def rstripSlashS (s : String) : String :=
  ((s.toList.reverse.dropWhile (fun c => c = '/')).reverse).asString

/-- Modelled from the spec: `normalizeUrl` is referenced by
`getProviderConfig` but not defined in the source file; per spec section 4.1
the base URL is the "normalized form of the configured base-url (trailing
slashes stripped)".  A falsy input stays falsy (empty). -/
def normalizeUrl (u : Option String) : String :=
  rstripSlashS (u.getD (""))

/-- Modelled from the spec: `authHeaders` is referenced by
`getProviderConfig` but not defined in the source file; per spec section 4.1
the header set "includes bearer-style auth built from the credential". -/
def authHeaders (k : Option String) : List (String × String) :=
  [("Authorization", "Bearer " ++ k.getD ("")),
   ("Content-Type", "application/json")]

/-- The derived connection contract of a provider (source lines 27-58). -/
structure ProviderContract where
  baseUrl : String
  headers : List (String × String)
  requiresApiKey : Bool
  requiresApiUrl : Bool
deriving DecidableEq, Repr

/-- `getProviderConfig` (source lines 27-58). -/
def getProviderConfig (s : AISettingsRec) : Option ProviderContract :=
  if s.provider = some pOpenai then
    some { baseUrl := OPENAI_BASE_URL
           headers := authHeaders s.apiKey
           requiresApiKey := true
           requiresApiUrl := false }
  else if s.provider = some pCompat then
    some { baseUrl := normalizeUrl s.apiUrl
           headers := authHeaders s.apiKey
           requiresApiKey := true
           requiresApiUrl := true }
  else if s.provider = some pOllama then
    some { baseUrl := if normalizeUrl s.apiUrl = "" then DEFAULT_OLLAMA_URL
                      else normalizeUrl s.apiUrl
           headers := [("Content-Type", "application/json")]
           requiresApiKey := false
           requiresApiUrl := false }
  else none

/-- `validateProviderConfig` (source lines 60-70): `none` means valid,
`some (code, message)` is the structured error. -/
def validateProviderConfig (s : AISettingsRec) (config : Option ProviderContract) :
    Option (Nat × String) :=
  match config with
  | none => some (400, "Unsupported provider")
  | some c =>
    if c.requiresApiKey && strFalsy s.apiKey then
      some (400, (if s.provider = some pOpenai then ("OpenAI") else ("OpenAI Compatible"))
                   ++ " API key not configured")
    else if c.requiresApiUrl && strFalsy s.apiUrl then
      some (400, "OpenAI Compatible API URL not configured")
    else none

/-! ## `updateAISettings` (source lines 77-93) -/

/-- A partial-update request; `none` marks a field absent (`undefined`) in
the request body. -/
structure AIUpdate where
  enabled : Option Bool := none
  provider : Option String := none
  model : Option String := none
  apiKey : Option String := none
  apiUrl : Option String := none
deriving DecidableEq, Repr

/-- The `updatePayload` object of source lines 81-86: outer `none` = field
not in the payload; for `apiKey`, the stored value is `none` (null) when the
request carried the empty string. -/
structure AIPayload where
  enabled : Option Bool
  provider : Option String
  model : Option String
  apiKey : Option (Option String)
  apiUrl : Option String
deriving DecidableEq, Repr

/-- Source lines 81-86: build `updatePayload` from the request fields that
are present; `apiKey === "" ? null : apiKey`. -/
def buildPayload (u : AIUpdate) : AIPayload :=
  { enabled := u.enabled
    provider := u.provider
    model := u.model
    apiUrl := u.apiUrl
    apiKey := match u.apiKey with
      | none => none
      | some k => some (if k = "" then none else some k) }

/-- The settings-store `update(payload, selector)` collaborator: set exactly
the fields present in the payload. -/
def applyPayload (p : AIPayload) (s : AISettingsRec) : AISettingsRec :=
  { enabled := p.enabled.getD s.enabled
    provider := match p.provider with
      | some v => some v
      | none => s.provider
    model := match p.model with
      | some v => some v
      | none => s.model
    apiKey := p.apiKey.getD s.apiKey
    apiUrl := match p.apiUrl with
      | some v => some v
      | none => s.apiUrl }

/-- `updateAISettings` (source lines 77-93), as its effect on the single
stored record. -/
def updateAISettings (u : AIUpdate) (s : AISettingsRec) : AISettingsRec :=
  applyPayload (buildPayload u) s

/-! ## Transport abstraction

Each operation performs at most one `fetch`.  A `FetchOutcome β` describes
what that call did: the promise rejected (or a later `response.json()` /
property access on the parsed body threw) with an error message, or a
response arrived with an ok-flag, a numeric status and a parsed body of
shape `β`. -/

inductive FetchOutcome (β : Type) where
  | thrown (msg : String)
  | resp (ok : Bool) (status : Nat) (body : β)
deriving DecidableEq, Repr

/-! ## `testAIConnection` (source lines 95-170) -/

/-- Result of the connectivity probe: `{ success: true, message }` or a
structured `{ code, message }` error. -/
inductive TestOut where
  | ok (msg : String)
  | err (code : Nat) (msg : String)
deriving DecidableEq, Repr

/-- The parsed JSON body the probe inspects: `data.data` (a list of model
ids, for the hosted/compatible branches) and `data.models` (a list of model
names, for the local branch); `none` marks an absent key. -/
structure ProbeJson where
  dataArr : Option (List String)
  modelsArr : Option (List String)
deriving DecidableEq, Repr

/-- The V8 message of the `TypeError` raised by `data.data.some(...)` when
`data.data` is `undefined`; it is caught by the probe's `catch`. -/
def undefinedSomeMsg : String := "Cannot read properties of undefined (reading 'some')"

/-- `testAIConnection` (source lines 95-170).  The argument `so` is the
`findOne()` result (`none`: no record); `f` is the outcome of the single
listing fetch of whichever branch runs.  Every throw inside the `try` block
is converted by the `catch` of lines 166-169; the embedding is a total
function, which is exactly the claim that no exception escapes. -/
def testAIConnection (so : Option AISettingsRec) (f : FetchOutcome ProbeJson) : TestOut :=
  match so with
  | none => TestOut.err 400 ("AI is not enabled")
  | some s =>
    if !s.enabled then TestOut.err 400 ("AI is not enabled")
    else if strFalsy s.provider then TestOut.err 400 ("No AI provider configured")
    else if strFalsy s.model then TestOut.err 400 ("No AI model configured")
    else
      let m := s.model.getD ("")
      if s.provider = some pOpenai then
        if strFalsy s.apiKey then TestOut.err 400 ("OpenAI API key not configured")
        else match f with
          | FetchOutcome.thrown msg => TestOut.err 500 ("Connection test failed: " ++ msg)
          | FetchOutcome.resp ok status body =>
            if !ok then TestOut.err 500 ("OpenAI API error: " ++ toString status)
            else match body.dataArr with
              | none => TestOut.err 500 ("Connection test failed: " ++ undefinedSomeMsg)
              | some ids =>
                if !ids.contains m then
                  TestOut.err 400
                    ("Configured model \"" ++ m ++ "\" not found in your OpenAI account")
                else TestOut.ok ("Connection test successful")
      else if s.provider = some pOllama then
        match f with
        | FetchOutcome.thrown msg => TestOut.err 500 ("Connection test failed: " ++ msg)
        | FetchOutcome.resp ok status body =>
          if !ok then TestOut.err 500 ("Ollama API error: " ++ toString status)
          else
            let models := body.modelsArr.getD []
            if !models.contains m then
              TestOut.err 400 ("Configured model \"" ++ m ++ "\" not found in Ollama")
            else TestOut.ok ("Connection test successful")
      else if s.provider = some pCompat then
        if strFalsy s.apiUrl then
          TestOut.err 400 ("OpenAI Compatible API URL not configured")
        else if strFalsy s.apiKey then
          TestOut.err 400 ("OpenAI Compatible API key not configured")
        else match f with
          | FetchOutcome.thrown msg => TestOut.err 500 ("Connection test failed: " ++ msg)
          | FetchOutcome.resp ok status body =>
            if !ok then TestOut.err 500 ("OpenAI API error: " ++ toString status)
            else match body.dataArr with
              | none => TestOut.err 500 ("Connection test failed: " ++ undefinedSomeMsg)
              | some ids =>
                if !ids.contains m then
                  TestOut.err 400
                    ("Configured model \"" ++ m ++ "\" not found in OpenAI Compatible API")
                else TestOut.ok ("Connection test successful")
      else TestOut.ok ("Connection test successful")

/-! ## `fetchModelsForProvider` (source lines 172-250)

The source gives each provider branch its own try/catch (the ollama branch's
`catch` is attached directly to the branch; as written the braces do not
parse as JavaScript, and the evident per-branch structure is modelled).
Each branch function takes the outcome of its single fetch. -/

/-- Result of model listing: `{ models }`, the ollama branch's wrapped
`{ error: { code, message } }`, or a flat `{ code, message }`. -/
inductive ListOut where
  | models (l : List String)
  | errWrap (code : Nat) (msg : String)
  | errFlat (code : Nat) (msg : String)
deriving DecidableEq, Repr

/-- Ollama branch (source lines 176-190).  Body: `data.models` (`none` when
the key is absent, in which case the source substitutes `[]`); a `thrown`
outcome also covers `response.json()` rejecting, both caught by the branch's
catch. -/
def fetchModelsOllama (config : ProviderContract)
    (f : FetchOutcome (Option (List String))) : ListOut :=
  match f with
  | FetchOutcome.thrown _ => ListOut.models []
  | FetchOutcome.resp ok status body =>
    if !ok then ListOut.errWrap 500 ("Ollama API error: " ++ toString status)
    else ListOut.models ((body.getD []).filter (fun name => !(name = "")))

/-- The non-chat-model markers excluded by the hosted branch's filter. -/
def hasSubS (p s : String) : Bool := hasSub p.toList s.toList

/-- The hosted branch's chat-model filter (source lines 206-215): keep ids
containing "gpt" and none of the non-chat markers. -/
def chatModelPred (id : String) : Bool :=
  hasSubS ("gpt") id &&
  !hasSubS ("instruct") id &&
  !hasSubS ("edit") id &&
  !hasSubS ("embedding") id &&
  !hasSubS ("whisper") id &&
  !hasSubS ("tts") id &&
  !hasSubS ("dall-e") id

/-- JavaScript default `Array.prototype.sort` on strings: lexicographic. -/
def sortStrings (l : List String) : List String :=
  List.insertionSort (fun a b : String => a ≤ b) l

/-- OpenAI branch (source lines 191-223).  Body: `data.data` mapped to its
`id` fields; a `thrown` outcome also covers `response.json()` rejecting and
`data.data` being absent (its `.filter` then throws), all caught by the
branch's catch, which returns `{ models: [] }`. -/
def fetchModelsOpenai (s : AISettingsRec)
    (f : FetchOutcome (List String)) : ListOut :=
  if strFalsy s.apiKey then ListOut.errFlat 400 ("OpenAI API key not configured")
  else match f with
  | FetchOutcome.thrown _ => ListOut.models []
  | FetchOutcome.resp ok status body =>
    if !ok then ListOut.errFlat 500 ("Failed to fetch models from OpenAI")
    else ListOut.models (sortStrings (body.filter chatModelPred))

/-- OpenAI-compatible branch (source lines 224-246).  Body: `data.models`
mapped to its `name` fields (`none` when the key is absent, in which case
the source substitutes `[]`); `thrown` covers a rejected fetch or
`response.json()`, caught by the branch's catch. -/
def fetchModelsCompat (s : AISettingsRec)
    (f : FetchOutcome (Option (List String))) : ListOut :=
  if strFalsy s.apiUrl then
    ListOut.errFlat 400 ("OpenAI Compatible API URL not configured")
  else if strFalsy s.apiKey then
    ListOut.errFlat 400 ("OpenAI Compatible API key not configured")
  else match f with
  | FetchOutcome.thrown _ => ListOut.models []
  | FetchOutcome.resp ok status body =>
    if !ok then ListOut.errFlat 500 ("Failed to fetch models from OpenAI Compatible API")
    else ListOut.models ((body.getD []).filter (fun name => !(name = "")))

/-! ## `generateCommand` and the per-provider request builders
(source lines 252-329) -/

def SYSTEM_PROMPT : String :=
  "You are a Linux command generator assistant. Your job is to generate appropriate Linux/Unix shell commands based on user requests.\n\nRules:\n1. Return ONLY the command(s), no explanations or markdown formatting\n2. If multiple commands are needed, separate them with && or ;\n3. Prefer safe, commonly available commands\n4. If the request is unclear, provide the most likely intended command\n5. For dangerous operations, use safer alternatives when possible\n6. Always assume the user wants commands for a modern Linux system\n\nExamples:\nUser: \"list all files\"\nResponse: ls -la\n\nUser: \"find large files\"\nResponse: find . -type f -size +100M -exec ls -lh \x7b\x7d + | sort -k5 -hr\n\nUser: \"check memory usage\"\nResponse: free -h && top -o %MEM -n 1"

/-- One `{ role, content }` message turn. -/
structure ChatTurn where
  role : String
  content : String
deriving DecidableEq, Repr

/-- The outbound generation request a provider branch builds.  Temperature
is recorded in tenths (the source's literal `0.3` is `3` tenths).
`chatShape` is the chat-completions body with `max_tokens`; `ollamaShape`
is the local provider's body with `stream` and an `options` block. -/
inductive GenRequest where
  | chatShape (url : String) (model : String) (messages : List ChatTurn)
      (maxTokens : Nat) (tempTenths : Nat) (stop : List String)
  | ollamaShape (url : String) (model : String) (messages : List ChatTurn)
      (stream : Bool) (tempTenths : Nat) (numPredict : Nat) (stop : List String)
deriving DecidableEq, Repr

/-- `generateOpenAICommand` (source lines 276-301), up to the issued
request.  The missing-credential guard of line 277 `throw`s, modelled as
`Except.error`.  (The source's `config.headers` on line 281 is an
undeclared reference; headers are part of the transport call, which the
embedding abstracts, and do not affect the request body.) -/
def generateOpenAICommand (prompt : String) (s : AISettingsRec) :
    Except String GenRequest :=
  if strFalsy s.apiKey then Except.error ("OpenAI API key not configured")
  else Except.ok (GenRequest.chatShape
    ("https://api.openai.com/v1/chat/completions")
    (s.model.getD (""))
    [{ role := "system", content := SYSTEM_PROMPT },
     { role := "user", content := prompt }]
    150 3 ["\n\n"])

/-- `generateOllamaCommand` (source lines 303-329), up to the issued
request: POST to `(apiUrl || default)` stripped of trailing slashes plus
`/api/chat`, with `stream: false` and an options block. -/
def generateOllamaCommand (prompt : String) (s : AISettingsRec) : GenRequest :=
  let ollamaUrl := rstripSlashS (if strFalsy s.apiUrl then DEFAULT_OLLAMA_URL
                                 else s.apiUrl.getD (""))
  GenRequest.ollamaShape
    (ollamaUrl ++ "/api/chat")
    (s.model.getD (""))
    [{ role := "system", content := SYSTEM_PROMPT },
     { role := "user", content := prompt }]
    false 3 150 ["\n\n"]

/-- `generateCommand` (source lines 252-274), up to the request the
dispatched builder issues.  The source declares `command` twice (lines 258
and 269, a `let`/`const` redeclaration that is not valid JavaScript); the
first, coherent dispatch of lines 259-267 is modelled: it routes
`openai_compatible` through `generateOllamaCommand`.  `Sum.inl` is a
structured `{ code, message }` error; `Sum.inr` is the dispatched builder's
result. -/
def generateCommandRequest (prompt : String) (so : Option AISettingsRec) :
    Sum (Nat × String) (Except String GenRequest) :=
  match so with
  | none => Sum.inl (400, "AI is not enabled")
  | some s =>
    if !s.enabled then Sum.inl (400, "AI is not enabled")
    else if strFalsy s.provider || strFalsy s.model then
      Sum.inl (400, "AI not properly configured")
    else if s.provider = some pOpenai then
      Sum.inr (generateOpenAICommand prompt s)
    else if s.provider = some pCompat then
      Sum.inr (Except.ok (generateOllamaCommand prompt s))
    else if s.provider = some pOllama then
      Sum.inr (Except.ok (generateOllamaCommand prompt s))
    else Sum.inl (400, "Unsupported AI provider")

/-! ## Derived helper predicates used in claim statements -/

/-- The requires-credential flag of the contract resolved for `s` (false
when no contract resolves). -/
def requiresKeyOf (s : AISettingsRec) : Bool :=
  match getProviderConfig s with
  | some c => c.requiresApiKey
  | none => false

/-- Recognize the validator's credential-missing error (either provider
flavour of the "API key not configured" message with code 400). -/
def credMissingErr (r : Option (Nat × String)) : Bool :=
  match r with
  | some (c, m) =>
    c = 400 && (m = "OpenAI API key not configured" ||
                m = "OpenAI Compatible API key not configured")
  | none => false

/-- `c` occurs as a contiguous segment of `s`. -/
def SubSeg (c s : List Char) : Prop := ∃ a b, s = a ++ c ++ b

/-- The list contains at least one non-whitespace character. -/
def hasNonWs (l : List Char) : Bool := l.any (fun c => !isWs c)

/-! # Theorems -/

/-! ## dropWhile / trim toolbox -/

/-- The head surviving a `dropWhile` fails the predicate. -/
theorem dropWhile_head_false {p : Char → Bool} :
    ∀ {l h t}, List.dropWhile p l = h :: t → p h = false := by
  intro l
  induction l with
  | nil => intro h t e; cases e
  | cons c cs ih =>
    intro h t e
    by_cases hc : p c = true
    · rw [List.dropWhile_cons, if_pos hc] at e
      exact ih e
    · rw [List.dropWhile_cons, if_neg hc] at e
      cases e
      exact Bool.eq_false_iff.mpr hc

/-- A `dropWhile` by a weaker predicate after a `dropWhile` by a stronger
one is the identity. -/
theorem dropWhile_dropWhile_sub {p q : Char → Bool}
    (himp : ∀ a, p a = true → q a = true) (l : List Char) :
    List.dropWhile p (List.dropWhile q l) = List.dropWhile q l := by
  cases e : List.dropWhile q l with
  | nil => rfl
  | cons h t =>
    have hq : q h = false := dropWhile_head_false e
    have hp : p h = false := by
      cases hpv : p h
      · rfl
      · rw [himp h hpv] at hq; cases hq
    rw [List.dropWhile_cons, if_neg (by simp [hp])]

/-- `rdropWhileL` of a cons either empties or keeps the head. -/
theorem rdropWhile_head (p : Char → Bool) (h : Char) (t : List Char) :
    rdropWhileL p (h :: t) = [] ∨ ∃ t2, rdropWhileL p (h :: t) = h :: t2 := by
  unfold rdropWhileL
  rw [List.reverse_cons, List.dropWhile_append]
  by_cases he : (List.dropWhile p t.reverse).isEmpty = true
  · rw [if_pos he]
    by_cases hh : p h = true
    · left; simp [List.dropWhile_cons, hh]
    · right; exact ⟨[], by simp [List.dropWhile_cons, hh]⟩
  · rw [if_neg he]
    right
    exact ⟨(List.dropWhile p t.reverse).reverse, by simp⟩

/-- If `dropWhile p` fixes `u`, it also fixes `rdropWhileL p u`. -/
theorem dropWhile_rdrop (p : Char → Bool) :
    ∀ u, List.dropWhile p u = u →
      List.dropWhile p (rdropWhileL p u) = rdropWhileL p u := by
  intro u hu
  cases u with
  | nil => simp [rdropWhileL]
  | cons h t =>
    have hh : p h = false := by
      cases hpv : p h
      · rfl
      · rw [List.dropWhile_cons, if_pos hpv] at hu
        have hle := (@List.dropWhile_sublist Char t p).length_le
        rw [hu] at hle
        simp at hle
    rcases rdropWhile_head p h t with e | ⟨t2, e⟩
    · simp [e]
    · rw [e, List.dropWhile_cons, if_neg (by simp [hh])]

/-- `rdropWhileL` is idempotent. -/
theorem rdrop_rdrop (p : Char → Bool) (v : List Char) :
    rdropWhileL p (rdropWhileL p v) = rdropWhileL p v := by
  unfold rdropWhileL
  rw [List.reverse_reverse, dropWhile_dropWhile_sub (fun a h => h)]

/-- Stripping trailing CR/LF after a whitespace right-trim changes
nothing. -/
theorem rstrip_rdropWs (v : List Char) :
    rstripNl (rdropWhileL isWs v) = rdropWhileL isWs v := by
  unfold rstripNl rdropWhileL
  rw [List.reverse_reverse]
  have himp : ∀ a, isNlCh a = true → isWs a = true := by
    intro a h
    rcases Bool.or_eq_true _ _ |>.mp h with h1 | h1
    · rw [of_decide_eq_true h1]; decide
    · rw [of_decide_eq_true h1]; decide
  rw [dropWhile_dropWhile_sub himp]

/-- `replace(/[\r\n]+$/, "")` after `trim()` changes nothing. -/
theorem rstrip_trim (s : List Char) : rstripNl (trimL s) = trimL s :=
  rstrip_rdropWs (List.dropWhile isWs s)

/-- `trim()` is idempotent. -/
theorem trim_trim (s : List Char) : trimL (trimL s) = trimL s := by
  have h1 : List.dropWhile isWs (trimL s) = trimL s := by
    unfold trimL
    exact dropWhile_rdrop isWs _ (dropWhile_dropWhile_sub (fun a h => h) s)
  show rdropWhileL isWs (List.dropWhile isWs (trimL s)) = trimL s
  rw [h1]
  unfold trimL
  exact rdrop_rdrop isWs _

/-- Membership in an `rdropWhileL` implies membership in the list. -/
theorem mem_rdrop {p : Char → Bool} {a : Char} {l : List Char}
    (h : a ∈ rdropWhileL p l) : a ∈ l := by
  unfold rdropWhileL at h
  rw [List.mem_reverse] at h
  exact List.mem_reverse.mp ((List.dropWhile_sublist p).subset h)

/-- Membership in a `trim` implies membership in the string. -/
theorem mem_trim {a : Char} {s : List Char} (h : a ∈ trimL s) : a ∈ s :=
  (List.dropWhile_sublist isWs).subset (mem_rdrop h)

/-- Membership in an `rstripNl` implies membership in the string. -/
theorem mem_rstrip {a : Char} {s : List Char} (h : a ∈ rstripNl s) : a ∈ s :=
  mem_rdrop h

/-- Unfolding lemma for `strFalsy` on a present value. -/
theorem strFalsy_some (x : String) : strFalsy (some x) = decide (x = "") := rfl

/-! ## splitNl toolbox -/

/-- `split("\n")` never returns an empty array. -/
theorem splitNl_ne_nil (s : List Char) : splitNl s ≠ [] := by
  cases s with
  | nil => simp [splitNl]
  | cons c t =>
    unfold splitNl
    by_cases hc : c = '\n'
    · simp [hc]
    · rw [if_neg hc]
      cases splitNl t <;> simp

/-- Pieces of `split("\n")` contain no newline. -/
theorem splitNl_no_nl : ∀ {s e : List Char}, e ∈ splitNl s → '\n' ∉ e := by
  intro s
  induction s with
  | nil =>
    intro e he
    simp [splitNl] at he
    simp [he]
  | cons c t ih =>
    intro e he
    unfold splitNl at he
    by_cases hc : c = '\n'
    · rw [if_pos hc] at he
      rcases List.mem_cons.mp he with h | h
      · simp [h]
      · exact ih h
    · rw [if_neg hc] at he
      cases hsp : splitNl t with
      | nil => exact absurd hsp (splitNl_ne_nil t)
      | cons h0 r =>
        rw [hsp] at he
        rcases List.mem_cons.mp he with h | h
        · subst h
          intro hmem
          rcases List.mem_cons.mp hmem with h | h
          · exact hc h.symm
          · exact ih (hsp ▸ List.mem_cons_self h0 r) h
        · exact ih (hsp ▸ List.mem_cons.mpr (Or.inr h))

/-- A newline-free string splits to the singleton of itself. -/
theorem splitNl_single : ∀ {s : List Char}, '\n' ∉ s → splitNl s = [s] := by
  intro s
  induction s with
  | nil => intro _; rfl
  | cons c t ih =>
    intro h
    have hc : ¬ c = '\n' := fun e => h (e ▸ List.mem_cons_self c t)
    have ht : '\n' ∉ t := fun m => h (List.mem_cons.mpr (Or.inr m))
    unfold splitNl
    rw [if_neg hc, ih ht]

/-- The first piece of `split("\n")` is an initial segment. -/
theorem splitNl_head_app : ∀ {s h : List Char} {r}, splitNl s = h :: r →
    ∃ b, s = h ++ b := by
  intro s
  induction s with
  | nil =>
    intro h r e
    simp [splitNl] at e
    exact ⟨[], by simp [e.1.symm]⟩
  | cons c t ih =>
    intro h r e
    unfold splitNl at e
    by_cases hc : c = '\n'
    · rw [if_pos hc] at e
      cases e
      exact ⟨c :: t, rfl⟩
    · rw [if_neg hc] at e
      cases hsp : splitNl t with
      | nil => exact absurd hsp (splitNl_ne_nil t)
      | cons h0 r0 =>
        rw [hsp] at e
        cases e
        obtain ⟨b, hb⟩ := ih hsp
        exact ⟨b, by simp [hb]⟩

/-! ## Contiguous-segment (substring) toolbox -/

theorem subseg_refl (c : List Char) : SubSeg c c := ⟨[], [], by simp⟩

theorem subseg_trans {c s z : List Char} (h1 : SubSeg c s) (h2 : SubSeg s z) :
    SubSeg c z := by
  obtain ⟨a, b, rfl⟩ := h1
  obtain ⟨x, y, rfl⟩ := h2
  exact ⟨x ++ a, b ++ y, by simp⟩

theorem subseg_lower {c s : List Char} (h : SubSeg c s) :
    SubSeg (lowerL c) (lowerL s) := by
  obtain ⟨a, b, rfl⟩ := h
  exact ⟨lowerL a, lowerL b, by simp [lowerL]⟩

/-- `trim()` of a string is a contiguous segment of it, with all-whitespace
flanks. -/
theorem trim_decomp (s : List Char) :
    ∃ w₁ w₂, s = w₁ ++ trimL s ++ w₂ ∧
      (∀ c ∈ w₁, isWs c = true) ∧ (∀ c ∈ w₂, isWs c = true) := by
  refine ⟨List.takeWhile isWs s,
          (List.takeWhile isWs (List.dropWhile isWs s).reverse).reverse, ?_, ?_, ?_⟩
  · conv_lhs => rw [(List.takeWhile_append_dropWhile isWs s).symm]
    have : List.dropWhile isWs s
        = trimL s ++ (List.takeWhile isWs (List.dropWhile isWs s).reverse).reverse := by
      conv_lhs => rw [← List.reverse_reverse (List.dropWhile isWs s),
                      ← List.takeWhile_append_dropWhile isWs
                          (List.dropWhile isWs s).reverse]
      rw [List.reverse_append]
      rfl
    rw [List.append_assoc, ← this]
  · exact fun c hc => List.mem_takeWhile_imp hc
  · intro c hc
    exact List.mem_takeWhile_imp (List.mem_reverse.mp hc)

theorem subseg_trim (s : List Char) : SubSeg (trimL s) s := by
  obtain ⟨w₁, w₂, he, -, -⟩ := trim_decomp s
  exact ⟨w₁, w₂, he⟩

/-- Every piece of `split("\n")` is a contiguous segment. -/
theorem subseg_of_mem_splitNl : ∀ {s e : List Char}, e ∈ splitNl s → SubSeg e s := by
  intro s
  induction s with
  | nil =>
    intro e he
    simp [splitNl] at he
    exact he ▸ subseg_refl []
  | cons c t ih =>
    intro e he
    unfold splitNl at he
    by_cases hc : c = '\n'
    · rw [if_pos hc] at he
      rcases List.mem_cons.mp he with h | h
      · exact ⟨[], c :: t, by simp [h]⟩
      · obtain ⟨a, b, hab⟩ := ih h
        exact ⟨c :: a, b, by simp [hab]⟩
    · rw [if_neg hc] at he
      cases hsp : splitNl t with
      | nil => exact absurd hsp (splitNl_ne_nil t)
      | cons h0 r0 =>
        rw [hsp] at he
        rcases List.mem_cons.mp he with h | h
        · obtain ⟨b, hb⟩ := splitNl_head_app hsp
          exact ⟨[], b, by simp [h, hb]⟩
        · obtain ⟨a, b, hab⟩ := ih (hsp ▸ List.mem_cons.mpr (Or.inr h))
          exact ⟨c :: a, b, by simp [hab]⟩

/-! ## startsWith / substring-search toolbox -/

theorem startsWith_iff : ∀ {p s : List Char},
    startsWithL p s = true ↔ ∃ r, s = p ++ r := by
  intro p
  induction p with
  | nil => intro s; simp [startsWithL]
  | cons a p ih =>
    intro s
    cases s with
    | nil =>
      simp only [startsWithL]
      constructor
      · intro h; cases h
      · rintro ⟨r, hr⟩; cases hr
    | cons b t =>
      simp only [startsWithL, Bool.and_eq_true, decide_eq_true_eq]
      rw [ih]
      constructor
      · rintro ⟨rfl, r, rfl⟩
        exact ⟨r, rfl⟩
      · rintro ⟨r, hr⟩
        cases hr
        exact ⟨rfl, r, rfl⟩

theorem hasSub_iff : ∀ {p s : List Char},
    hasSub p s = true ↔ ∃ a b, s = a ++ p ++ b := by
  intro p s
  induction s with
  | nil =>
    simp only [hasSub]
    rw [startsWith_iff]
    constructor
    · rintro ⟨r, hr⟩
      exact ⟨[], r, by simp [hr]⟩
    · rintro ⟨a, b, hab⟩
      obtain ⟨h1, -⟩ := List.append_eq_nil.mp hab.symm
      obtain ⟨-, h4⟩ := List.append_eq_nil.mp h1
      exact ⟨[], by simp [h4]⟩
  | cons c t ih =>
    simp only [hasSub, Bool.or_eq_true]
    rw [startsWith_iff, ih]
    constructor
    · rintro (⟨r, hr⟩ | ⟨a, b, hab⟩)
      · exact ⟨[], r, by simp [hr]⟩
      · exact ⟨c :: a, b, by simp [hab]⟩
    · rintro ⟨a, b, hab⟩
      cases a with
      | nil => exact Or.inl ⟨b, by simpa using hab⟩
      | cons a0 a1 =>
        right
        refine ⟨a1, b, ?_⟩
        have h2 : t = a1 ++ (p ++ b) := by
          have := hab
          simp at this
          exact this.2
        rw [h2, List.append_assoc]

theorem startsWith_hasSub {p s : List Char} (h : startsWithL p s = true) :
    hasSub p s = true := by
  cases s with
  | nil => exact h
  | cons c t => exact Bool.or_eq_true _ _ |>.mpr (Or.inl h)

/-- Substring absence is inherited by contiguous segments. -/
theorem hasSub_mono {p s c : List Char} (hs : hasSub p s = false)
    (hc : SubSeg c s) : hasSub p c = false := by
  cases hv : hasSub p c
  · rfl
  · obtain ⟨a, b, rfl⟩ := hasSub_iff.mp hv
    obtain ⟨x, y, rfl⟩ := hc
    rw [show x ++ (a ++ p ++ b) ++ y = (x ++ a) ++ p ++ (b ++ y) by simp] at hs
    rw [hasSub_iff.mpr ⟨x ++ a, b ++ y, rfl⟩] at hs
    cases hs

/-! ## Nonempty-line counting toolbox -/

/-- `trim()` ignores a leading whitespace character. -/
theorem trim_cons_ws {x : Char} (hx : isWs x = true) (h : List Char) :
    trimL (x :: h) = trimL h := by
  unfold trimL
  rw [List.dropWhile_cons, if_pos hx]

/-- A leading non-whitespace character survives `trim()`. -/
theorem trim_ne_nil {l : List Char} (h : hasNonWs l = true) : trimL l ≠ [] := by
  intro he
  obtain ⟨w₁, w₂, hd, hw₁, hw₂⟩ := trim_decomp l
  rw [he] at hd
  obtain ⟨c, hc, hcw⟩ := List.any_eq_true.mp h
  rw [hd] at hc
  simp at hc
  rcases hc with hc | hc
  · rw [hw₁ c hc] at hcw; cases hcw
  · rw [hw₂ c hc] at hcw; cases hcw

/-- Unfolding `split("\n")` at a leading newline. -/
theorem splitNl_nl_cons (t : List Char) : splitNl ('\n' :: t) = [] :: splitNl t := by
  simp [splitNl]

/-- Unfolding `split("\n")` at a leading non-newline character. -/
theorem splitNl_cons_of {c : Char} {t h0 : List Char} {r0 : List (List Char)}
    (hc : ¬ c = '\n') (hsp : splitNl t = h0 :: r0) :
    splitNl (c :: t) = (c :: h0) :: r0 := by
  simp only [splitNl, hsp]
  rw [if_neg hc]

/-- A leading whitespace character does not change the nonempty-line list. -/
theorem linesOf_cons_ws {x : Char} (hx : isWs x = true) (t : List Char) :
    linesOf (x :: t) = linesOf t := by
  unfold linesOf
  by_cases hc : x = '\n'
  · rw [hc, splitNl_nl_cons t]
    simp [trimL, rdropWhileL]
  · cases hsp : splitNl t with
    | nil => exact absurd hsp (splitNl_ne_nil t)
    | cons h0 r0 =>
      rw [splitNl_cons_of hc hsp]
      simp only [List.map_cons, List.filter_cons, trim_cons_ws hx]

/-- A cons by whitespace keeps `hasNonWs`. -/
theorem hasNonWs_cons_ws {x : Char} (hx : isWs x = true) (t : List Char) :
    hasNonWs (x :: t) = hasNonWs t := by
  simp [hasNonWs, hx]

/-- A string with a non-whitespace character has at least one nonempty
line. -/
theorem one_le_linesOf : ∀ {b : List Char}, hasNonWs b = true →
    1 ≤ (linesOf b).length := by
  intro b
  induction b with
  | nil => intro h; cases h
  | cons x t ih =>
    intro h
    cases hx : isWs x with
    | true =>
      rw [linesOf_cons_ws hx]
      exact ih ((hasNonWs_cons_ws hx t) ▸ h)
    | false =>
      have hc : ¬ x = '\n' := by
        intro he; rw [he] at hx; cases hx
      cases hsp : splitNl t with
      | nil => exact absurd hsp (splitNl_ne_nil t)
      | cons h0 r0 =>
        unfold linesOf
        rw [splitNl_cons_of hc hsp]
        have hne : trimL (x :: h0) ≠ [] :=
          trim_ne_nil (by simp [hasNonWs, hx])
        simp only [List.map_cons, List.filter_cons,
                   show (!(trimL (x :: h0)).isEmpty) = true by
                     simpa [List.isEmpty_iff] using hne]
        simp

/-- Splitting around an explicit newline: the pieces right of the newline
contribute at least the nonempty lines of the right part. -/
theorem splitNl_app_nl : ∀ (a b : List Char), 1 ≤ (linesOf b).length →
    ∃ h r, splitNl (a ++ '\n' :: b) = h :: r ∧
      1 ≤ ((r.map trimL).filter (fun l => !l.isEmpty)).length := by
  intro a
  induction a with
  | nil =>
    intro b hb
    exact ⟨[], splitNl b, by rw [List.nil_append, splitNl_nl_cons b], hb⟩
  | cons y a2 ih =>
    intro b hb
    obtain ⟨h, r, e, hr⟩ := ih b hb
    by_cases hy : y = '\n'
    · refine ⟨[], h :: r, ?_, ?_⟩
      · show splitNl (y :: (a2 ++ '\n' :: b)) = [] :: h :: r
        rw [hy, splitNl_nl_cons, e]
      · simp only [List.map_cons, List.filter_cons]
        cases hfe : !(trimL h).isEmpty
        · simpa [hfe] using hr
        · simp [hfe]
    · exact ⟨y :: h, r, splitNl_cons_of hy e, hr⟩

/-- A newline with non-whitespace on both sides forces at least two
nonempty lines. -/
theorem two_le_linesOf_app : ∀ (a b : List Char), hasNonWs a = true →
    hasNonWs b = true → 2 ≤ (linesOf (a ++ '\n' :: b)).length := by
  intro a
  induction a with
  | nil => intro b ha _; cases ha
  | cons x a2 ih =>
    intro b ha hb
    cases hx : isWs x with
    | true =>
      rw [show (x :: a2) ++ '\n' :: b = x :: (a2 ++ '\n' :: b) from rfl,
          linesOf_cons_ws hx]
      exact ih b ((hasNonWs_cons_ws hx a2) ▸ ha) hb
    | false =>
      obtain ⟨h, r, e, hr⟩ := splitNl_app_nl a2 b (one_le_linesOf hb)
      have hc : ¬ x = '\n' := by
        intro he; rw [he] at hx; cases hx
      unfold linesOf
      rw [show (x :: a2) ++ '\n' :: b = x :: (a2 ++ '\n' :: b) from rfl]
      rw [splitNl_cons_of hc e]
      have hne : trimL (x :: h) ≠ [] := trim_ne_nil (by simp [hasNonWs, hx])
      have hpos : (fun l => !List.isEmpty l) (trimL (x :: h)) = true := by
        simpa [List.isEmpty_iff] using hne
      rw [List.map_cons,
          @List.filter_cons_of_pos (List Char) (fun l => !List.isEmpty l) _ _ hpos]
      simp only [List.length_cons]
      omega

/-- The head of a nonempty `trim()` is not whitespace. -/
theorem trim_head_not_ws {s h : List Char} {c : Char} (e : trimL s = c :: h) :
    isWs c = false := by
  unfold trimL at e
  cases hu : List.dropWhile isWs s with
  | nil => rw [hu] at e; simp [rdropWhileL] at e
  | cons uh ut =>
    rw [hu] at e
    rcases rdropWhile_head isWs uh ut with h2 | ⟨t2, h2⟩
    · rw [h2] at e; cases e
    · rw [h2] at e
      cases e
      exact dropWhile_head_false hu

/-- The last character of a nonempty `trim()` is not whitespace (stated on
the reverse). -/
theorem trim_rev_head_not_ws {s h : List Char} {c : Char}
    (e : (trimL s).reverse = c :: h) : isWs c = false := by
  have : (trimL s).reverse = List.dropWhile isWs (List.dropWhile isWs s).reverse := by
    unfold trimL rdropWhileL
    rw [List.reverse_reverse]
  rw [this] at e
  exact dropWhile_head_false e

/-- A newline surviving `trim()` has non-whitespace on both sides. -/
theorem nl_mem_trim_decomp {c : List Char} (h : '\n' ∈ trimL c) :
    ∃ a b, c = a ++ '\n' :: b ∧ hasNonWs a = true ∧ hasNonWs b = true := by
  obtain ⟨w₁, w₂, hd, hw₁, hw₂⟩ := trim_decomp c
  have hne : List.dropWhile (fun ch => !(ch = '\n')) (trimL c) ≠ [] := by
    intro he
    have := List.dropWhile_eq_nil_iff.mp he '\n' h
    simp at this
  cases hdw : List.dropWhile (fun ch => !(ch = '\n')) (trimL c) with
  | nil => exact absurd hdw hne
  | cons z d₂ =>
    have hz : z = '\n' := by
      have := @dropWhile_head_false (fun ch => !(ch = '\n')) _ _ _ hdw
      simpa using this
    subst hz
    set d₁ := List.takeWhile (fun ch => !(ch = '\n')) (trimL c) with hd₁
    have htc : trimL c = d₁ ++ '\n' :: d₂ := by
      rw [hd₁, ← hdw, List.takeWhile_append_dropWhile]
    have hnd₁ : hasNonWs d₁ = true := by
      cases hd1c : d₁ with
      | nil =>
        rw [hd1c] at htc
        simp at htc
        have := trim_head_not_ws htc
        simp [isWs] at this
      | cons dh dt =>
        rw [hd1c] at htc
        have : trimL c = dh :: (dt ++ '\n' :: d₂) := by simpa using htc
        have hws := trim_head_not_ws this
        simp [hd1c, hasNonWs, hws]
    have hnd₂ : hasNonWs d₂ = true := by
      have hrev : (trimL c).reverse = d₂.reverse ++ '\n' :: d₁.reverse := by
        rw [htc]
        simp
      cases hd2c : d₂.reverse with
      | nil =>
        rw [hd2c] at hrev
        rw [List.nil_append] at hrev
        have := trim_rev_head_not_ws hrev
        simp [isWs] at this
      | cons z2 zt =>
        rw [hd2c] at hrev
        have : (trimL c).reverse = z2 :: (zt ++ '\n' :: d₁.reverse) := by
          simpa using hrev
        have hws := trim_rev_head_not_ws this
        have hz2 : z2 ∈ d₂ := by
          rw [← List.mem_reverse, hd2c]
          exact List.mem_cons_self z2 zt
        exact List.any_eq_true.mpr ⟨z2, hz2, by simp [hws]⟩
    refine ⟨w₁ ++ d₁, d₂ ++ w₂, ?_, ?_, ?_⟩
    · rw [hd, htc]
      simp
    · rw [hasNonWs, List.any_append]
      simp only [Bool.or_eq_true]
      exact Or.inr hnd₁
    · rw [hasNonWs, List.any_append]
      simp only [Bool.or_eq_true]
      exact Or.inl hnd₂

/-- With at most one nonempty line, the trimmed text has no newline. -/
theorem nl_not_mem_trim_of_short {c : List Char}
    (h : (linesOf c).length ≤ 1) : '\n' ∉ trimL c := by
  intro hn
  obtain ⟨a, b, rfl, ha, hb⟩ := nl_mem_trim_decomp hn
  have := two_le_linesOf_app a b ha hb
  omega

/-! ## Regex-capture toolbox -/

/-- Every character of a `goDot` capture is a dot-character. -/
theorem goDot_dot : ∀ {u g : List Char}, goDot u = some g →
    ∀ ch ∈ g, isDotCh ch = true := by
  intro u
  induction u with
  | nil => intro g e; cases e
  | cons c rest ih =>
    intro g e ch hch
    unfold goDot at e
    by_cases hd : isDotCh c = true
    · rw [if_pos hd] at e
      cases rest with
      | nil =>
        cases e
        rcases List.mem_singleton.mp hch with rfl
        exact hd
      | cons d rest2 =>
        dsimp only at e
        by_cases hdn : d = '\n'
        · rw [if_pos hdn] at e
          cases e
          rcases List.mem_singleton.mp hch with rfl
          exact hd
        · rw [if_neg hdn] at e
          cases hg : goDot (d :: rest2) with
          | none => rw [hg] at e; cases e
          | some g2 =>
            rw [hg] at e
            cases e
            rcases List.mem_cons.mp hch with rfl | hm
            · exact hd
            · exact ih hg ch hm
    · rw [if_neg hd] at e
      cases e

/-- Every character of an `msdLoop` capture is a dot-character. -/
theorem msdLoop_dot {t : List Char} : ∀ {j g}, msdLoop t j = some g →
    ∀ ch ∈ g, isDotCh ch = true := by
  intro j
  induction j with
  | zero => intro g e; exact goDot_dot e
  | succ j ih =>
    intro g e
    unfold msdLoop at e
    cases hg : goDot (t.drop (j + 1)) with
    | none => rw [hg] at e; exact ih e
    | some g2 =>
      rw [hg] at e
      cases e
      exact goDot_dot hg

/-- Every character of the `Response:` regex capture is a dot-character; in
particular the capture has no newline. -/
theorem findResp_dot : ∀ {s g : List Char}, findResp s = some g →
    ∀ ch ∈ g, isDotCh ch = true := by
  intro s
  induction s with
  | nil => intro g e; cases e
  | cons c t ih =>
    intro g e
    unfold findResp at e
    by_cases hs : startsWithL rspPat (lowerL (c :: t)) = true
    · rw [if_pos hs] at e
      cases hm : matchSpaceDot ((c :: t).drop 9) with
      | none => rw [hm] at e; exact ih e
      | some g2 =>
        rw [hm] at e
        cases e
        exact msdLoop_dot hm
    · rw [if_neg hs] at e
      exact ih e

/-- Without a (case-insensitive) `response:` substring the regex finds no
match. -/
theorem findResp_none : ∀ {s : List Char},
    hasSub rspPat (lowerL s) = false → findResp s = none := by
  intro s
  induction s with
  | nil => intro _; rfl
  | cons c t ih =>
    intro h
    have hl : lowerL (c :: t) = Char.toLower c :: lowerL t := rfl
    rw [hl] at h
    unfold hasSub at h
    rcases Bool.or_eq_false_iff.mp h with ⟨h1, h2⟩
    unfold findResp
    rw [hl, if_neg (by simp [h1])]
    exact ih h2

/-! ## Fence-strip identity on fence-free text -/

theorem stripFenceF_id : ∀ {n : Nat} {s : List Char}, s.length ≤ n →
    hasSub ticks s = false → stripFenceF n s = s := by
  intro n
  induction n with
  | zero =>
    intro s _ _
    rfl
  | succ n ih =>
    intro s hlen hsub
    cases s with
    | nil => rfl
    | cons c t =>
      unfold hasSub at hsub
      rcases Bool.or_eq_false_iff.mp hsub with ⟨h1, h2⟩
      have hlt : t.length ≤ n := by
        simp only [List.length_cons] at hlen
        omega
      unfold stripFenceF
      rw [if_neg (by simp [h1]), ih hlt h2]

theorem stripTicksF_id : ∀ {n : Nat} {s : List Char}, s.length ≤ n →
    hasSub ticks s = false → stripTicksF n s = s := by
  intro n
  induction n with
  | zero =>
    intro s _ _
    rfl
  | succ n ih =>
    intro s hlen hsub
    cases s with
    | nil => rfl
    | cons c t =>
      unfold hasSub at hsub
      rcases Bool.or_eq_false_iff.mp hsub with ⟨h1, h2⟩
      have hlt : t.length ≤ n := by
        simp only [List.length_cons] at hlen
        omega
      unfold stripTicksF
      rw [if_neg (by simp [h1]), ih hlt h2]

/-- Fence-free text passes through both replaces unchanged. -/
theorem cleanOf_id {s : List Char} (h : hasSub ticks s = false) :
    cleanOf s = s := by
  unfold cleanOf stripFence stripTicks
  rw [stripFenceF_id (Nat.le_refl _) h, stripTicksF_id (Nat.le_refl _) h]

/-! ## Fixed point of the normalizer on clean single-line input -/

/-- A nonempty, trimmed, newline-free, fence-free string with no role-label
substrings is a fixed point of `parseAIResponse`. -/
theorem parse_clean_fixed {l : List Char} (h1 : l ≠ []) (h2 : trimL l = l)
    (h3 : '\n' ∉ l) (h4 : hasSub ticks l = false)
    (h5 : hasSub usrPat (lowerL l) = false)
    (h6 : hasSub rspPat (lowerL l) = false) :
    parseAIResponse (some l) = l := by
  unfold parseAIResponse
  dsimp only
  rw [if_neg (by simp [List.isEmpty_iff, h1])]
  rw [show cleanOf l = l from cleanOf_id h4]
  rw [findResp_none h6]
  have husr : ¬ startsWithL usrPat (lowerL l) = true := by
    intro hs
    rw [startsWith_hasSub hs] at h5
    cases h5
  rw [if_neg (by simpa using husr)]
  have hlines : linesOf l = [l] := by
    unfold linesOf
    rw [splitNl_single h3]
    simp [h2, List.isEmpty_iff, h1]
  rw [hlines]
  rw [if_neg (by simp)]
  unfold tailPart
  have hrsp : ¬ startsWithL rspPat (lowerL l) = true := by
    intro hs
    rw [startsWith_hasSub hs] at h6
    cases h6
  rw [if_neg (by simpa using hrsp)]
  rw [rstrip_trim, h2]
  rw [if_neg (by simp [List.isEmpty_iff, h1])]

/-! ## C6: partial-update semantics of `updateAISettings` -/

/-- C6: `updateAISettings` applies only the fields present in the update
request: an update carrying only `apiKey = ""` clears the stored credential
to null and leaves every other field unchanged, and an update with no
fields supplied leaves every stored field unchanged. -/
theorem c6_partial_update (s : AISettingsRec) :
    updateAISettings {} s = s ∧
    updateAISettings { apiKey := some ("") } s = { s with apiKey := none } := by
  cases s
  exact ⟨rfl, rfl⟩

/-! ## C5: the credential-missing check of the Configuration Validator -/

/-- C5 counterexample: with the hosted provider and a stored credential that
is the *empty string* (present, not null), the validator still returns the
credential-missing error, so "credential-missing error iff credential is
null or absent" fails as stated. -/
theorem c5_counterexample :
    validateProviderConfig
        { enabled := true, provider := some pOpenai, model := some ("gpt-4"),
          apiKey := some (""), apiUrl := none }
        (getProviderConfig
          { enabled := true, provider := some pOpenai, model := some ("gpt-4"),
            apiKey := some (""), apiUrl := none })
      = some (400, "OpenAI API key not configured") ∧
    (some ("") : Option String) ≠ none := by
  exact ⟨rfl, by decide⟩

/-- C5 (amended): for all three provider kinds, the validator returns a
credential-missing error iff the resolved contract's requires-credential
flag is true and the stored credential is null, absent, or the empty string
(JavaScript-falsy), independent of the other configuration fields. -/
theorem c5_amended (s : AISettingsRec)
    (h : s.provider = some pOpenai ∨ s.provider = some pCompat ∨
         s.provider = some pOllama) :
    credMissingErr (validateProviderConfig s (getProviderConfig s)) = true ↔
      (requiresKeyOf s && strFalsy s.apiKey) = true := by
  rcases h with h | h | h <;>
    cases hk : strFalsy s.apiKey <;>
      simp [getProviderConfig, validateProviderConfig, credMissingErr,
            requiresKeyOf, h, hk, pOpenai, pCompat, pOllama] <;>
        cases hu : strFalsy s.apiUrl <;> simp [hu]

/-- Witness for `c5_amended` at a concrete configuration (hosted provider,
credential absent). -/
theorem c5_amended_witness :
    ((some pOpenai = some pOpenai ∨ some pOpenai = some pCompat ∨
      some pOpenai = some pOllama) ∧
     (credMissingErr (validateProviderConfig
         { enabled := true, provider := some pOpenai, model := none,
           apiKey := none, apiUrl := none }
         (getProviderConfig
           { enabled := true, provider := some pOpenai, model := none,
             apiKey := none, apiUrl := none })) = true ↔
       (requiresKeyOf
           { enabled := true, provider := some pOpenai, model := none,
             apiKey := none, apiUrl := none } &&
        strFalsy (none : Option String)) = true)) :=
  ⟨Or.inl rfl,
   c5_amended
     { enabled := true, provider := some pOpenai, model := none,
       apiKey := none, apiUrl := none }
     (Or.inl rfl)⟩

/-! ## C2: transport failures during model listing -/

/-- C2 counterexample: a non-2xx response during hosted-provider listing
returns the structured error `{ code: 500, message: "Failed to fetch models
from OpenAI" }`, not `{ models: [] }`, so "any transport failure yields
`{models: []}` and never a structured error" fails as stated. -/
theorem c2_counterexample :
    fetchModelsOpenai
        { enabled := true, provider := some pOpenai, model := some ("gpt-4"),
          apiKey := some ("sk-test"), apiUrl := none }
        (FetchOutcome.resp false 500 ([] : List String))
      = ListOut.errFlat 500 ("Failed to fetch models from OpenAI") ∧
    ListOut.errFlat 500 ("Failed to fetch models from OpenAI")
      ≠ ListOut.models [] := by
  exact ⟨rfl, by decide⟩

/-- C2 (amended): a *thrown* network error during listing yields
`{ models: [] }` for every provider branch and never an exception (the
embedding is total); a *non-2xx response*, however, yields a structured
500-class error — wrapped as `{ error: { code, message } }` for the local
provider and flat `{ code, message }` for hosted/compatible. -/
theorem c2_amended (config : ProviderContract) (s : AISettingsRec) (msg : String)
    (st : Nat) (b₁ : Option (List String)) (b₂ : List String)
    (b₃ : Option (List String))
    (hk : strFalsy s.apiKey = false) (hu : strFalsy s.apiUrl = false) :
    fetchModelsOllama config (FetchOutcome.thrown msg) = ListOut.models [] ∧
    fetchModelsOpenai s (FetchOutcome.thrown msg) = ListOut.models [] ∧
    fetchModelsCompat s (FetchOutcome.thrown msg) = ListOut.models [] ∧
    fetchModelsOllama config (FetchOutcome.resp false st b₁)
      = ListOut.errWrap 500 ("Ollama API error: " ++ toString st) ∧
    fetchModelsOpenai s (FetchOutcome.resp false st b₂)
      = ListOut.errFlat 500 ("Failed to fetch models from OpenAI") ∧
    fetchModelsCompat s (FetchOutcome.resp false st b₃)
      = ListOut.errFlat 500 ("Failed to fetch models from OpenAI Compatible API") := by
  refine ⟨rfl, ?_, ?_, rfl, ?_, ?_⟩ <;>
    simp [fetchModelsOpenai, fetchModelsCompat, hk, hu]

/-- Witness for `c2_amended` at a concrete configuration. -/
theorem c2_amended_witness :
    (strFalsy (some ("sk-test")) = false ∧ strFalsy (some ("http://x")) = false ∧
     fetchModelsOpenai
        { enabled := true, provider := some pOpenai, model := some ("gpt-4"),
          apiKey := some ("sk-test"), apiUrl := some ("http://x") }
        (FetchOutcome.thrown ("ECONNREFUSED")) = ListOut.models []) := by
  refine ⟨by decide, by decide, ?_⟩
  exact (c2_amended
    { baseUrl := DEFAULT_OLLAMA_URL, headers := [],
      requiresApiKey := false, requiresApiUrl := false }
    { enabled := true, provider := some pOpenai, model := some ("gpt-4"),
      apiKey := some ("sk-test"), apiUrl := some ("http://x") }
    ("ECONNREFUSED") 500 none [] none (by decide) (by decide)).2.1

/-! ## C4: hosted-provider model filtering and sorting -/

/-- C4: when the hosted-provider listing succeeds, the returned list is the
source's filter-and-sort of the reported ids; no returned id contains any
of the non-chat marker substrings, and the list is lexicographically
sorted. -/
theorem c4_hosted_models (s : AISettingsRec) (ids : List String) (st : Nat)
    (hk : strFalsy s.apiKey = false) :
    fetchModelsOpenai s (FetchOutcome.resp true st ids)
      = ListOut.models (sortStrings (ids.filter chatModelPred)) ∧
    (∀ m ∈ sortStrings (ids.filter chatModelPred),
       hasSubS ("embedding") m = false ∧ hasSubS ("whisper") m = false ∧
       hasSubS ("tts") m = false ∧ hasSubS ("dall-e") m = false ∧
       hasSubS ("instruct") m = false ∧ hasSubS ("edit") m = false) ∧
    List.Sorted (fun a b : String => a ≤ b)
      (sortStrings (ids.filter chatModelPred)) := by
  refine ⟨by simp [fetchModelsOpenai, hk], ?_, ?_⟩
  · intro m hm
    have hmem : m ∈ ids.filter chatModelPred :=
      ((List.perm_insertionSort _ _).mem_iff).mp hm
    have hpred := (List.mem_filter.mp hmem).2
    unfold chatModelPred at hpred
    simp only [Bool.and_eq_true, Bool.not_eq_true'] at hpred
    obtain ⟨⟨⟨⟨⟨⟨-, hin⟩, hed⟩, hem⟩, hwh⟩, htts⟩, hda⟩ := hpred
    exact ⟨hem, hwh, htts, hda, hin, hed⟩
  · exact List.sorted_insertionSort _ _

/-- Witness for `c4_hosted_models` at a concrete id list. -/
theorem c4_hosted_models_witness :
    (strFalsy (some ("sk-test")) = false ∧
     fetchModelsOpenai
        { enabled := true, provider := some pOpenai, model := some ("gpt-4"),
          apiKey := some ("sk-test"), apiUrl := none }
        (FetchOutcome.resp true 200 ["gpt-4", "gpt-3.5-turbo-instruct", "tts-1"])
       = ListOut.models
           (sortStrings
             ((["gpt-4", "gpt-3.5-turbo-instruct", "tts-1"]).filter chatModelPred))) := by
  refine ⟨by decide, ?_⟩
  exact (c4_hosted_models
    { enabled := true, provider := some pOpenai, model := some ("gpt-4"),
      apiKey := some ("sk-test"), apiUrl := none }
    ["gpt-4", "gpt-3.5-turbo-instruct", "tts-1"] 200 (by decide)).1

/-! ## C3: request shape for the `openai_compatible` provider -/

/-- C3: evaluating the generation dispatch at an `openai_compatible`
configuration.  The first (coherent) dispatch of `generateCommand` routes
the compatible provider through `generateOllamaCommand`, so the issued
request is the local provider's `/api/chat` shape (`stream`/`options`), not
the chat-completions shape with `max_tokens` that the specification
describes; the second conjunct records that the two shapes never
coincide. -/
theorem c3_compatible_dispatch :
    generateCommandRequest ("list files")
        (some { enabled := true, provider := some pCompat, model := some ("m1"),
                apiKey := some ("k1"), apiUrl := some ("https://api.example.com/v1") })
      = Sum.inr (Except.ok (GenRequest.ollamaShape
          ("https://api.example.com/v1/api/chat") ("m1")
          [{ role := "system", content := SYSTEM_PROMPT },
           { role := "user", content := "list files" }]
          false 3 150 ["\n\n"])) ∧
    (∀ url mdl msgs mt tt stp,
       (Sum.inr (Except.ok (GenRequest.ollamaShape
           ("https://api.example.com/v1/api/chat") ("m1")
           [{ role := "system", content := SYSTEM_PROMPT },
            { role := "user", content := "list files" }]
           false 3 150 ["\n\n"])) : Sum (Nat × String) (Except String GenRequest))
         ≠ Sum.inr (Except.ok (GenRequest.chatShape url mdl msgs mt tt stp))) := by
  constructor
  · rfl
  · intro url mdl msgs mt tt stp h
    simp at h

/-! ## C8: model-not-found detection by the Connectivity Prober -/

/-- C8: for each of the three provider kinds, when the probe's listing call
succeeds but the configured model is absent from the returned list, the
prober returns a 400 structured error whose message names the missing
model. -/
theorem c8_model_not_found (s : AISettingsRec) (m : String) (ids names : List String)
    (st : Nat) (mo da : Option (List String))
    (hen : s.enabled = true) (hm : s.model = some m) (hm0 : ¬ m = "") :
    (s.provider = some pOpenai → strFalsy s.apiKey = false →
      m ∉ ids →
      testAIConnection (some s)
          (FetchOutcome.resp true st { dataArr := some ids, modelsArr := mo })
        = TestOut.err 400
            ("Configured model \"" ++ m ++ "\" not found in your OpenAI account")) ∧
    (s.provider = some pOllama → m ∉ names →
      testAIConnection (some s)
          (FetchOutcome.resp true st { dataArr := da, modelsArr := some names })
        = TestOut.err 400 ("Configured model \"" ++ m ++ "\" not found in Ollama")) ∧
    (s.provider = some pCompat → strFalsy s.apiUrl = false →
      strFalsy s.apiKey = false → m ∉ ids →
      testAIConnection (some s)
          (FetchOutcome.resp true st { dataArr := some ids, modelsArr := mo })
        = TestOut.err 400
            ("Configured model \"" ++ m ++ "\" not found in OpenAI Compatible API")) := by
  refine ⟨?_, ?_, ?_⟩
  · intro hp hk hc
    simp [testAIConnection, hen, hp, hm, hm0, hk, hc, strFalsy_some, pOpenai,
          pCompat, pOllama]
  · intro hp hc
    simp [testAIConnection, hen, hp, hm, hm0, hc, strFalsy_some, pOpenai,
          pCompat, pOllama]
  · intro hp hu hk hc
    simp [testAIConnection, hen, hp, hm, hm0, hu, hk, hc, strFalsy_some, pOpenai,
          pCompat, pOllama]

/-- Witness for `c8_model_not_found`: local provider, model missing from the
reported tags. -/
theorem c8_model_not_found_witness :
    (true = true ∧ (some ("llama3") : Option String) = some ("llama3") ∧
     ¬ ("llama3" : String) = "" ∧
     testAIConnection
        (some { enabled := true, provider := some pOllama, model := some ("llama3"),
                apiKey := none, apiUrl := none })
        (FetchOutcome.resp true 200 { dataArr := none, modelsArr := some ["mistral"] })
       = TestOut.err 400
           ("Configured model \"" ++ "llama3" ++ "\" not found in Ollama")) := by
  refine ⟨rfl, rfl, by decide, ?_⟩
  exact ((c8_model_not_found
    { enabled := true, provider := some pOllama, model := some ("llama3"),
      apiKey := none, apiUrl := none }
    ("llama3") [] ["mistral"] 200 none none rfl rfl (by decide)).2.1
    rfl (by decide))

/-! ## C9: the Connectivity Prober converts thrown transport errors -/

/-- C9: the prober never lets an exception reach its caller — the embedding
is a total function — and every thrown transport error during the probe is
converted into the structured 500 result carrying the underlying message,
for each of the three provider kinds. -/
theorem c9_probe_catches (s : AISettingsRec) (msg m : String)
    (hen : s.enabled = true) (hm : s.model = some m) (hm0 : ¬ m = "") :
    (s.provider = some pOpenai → strFalsy s.apiKey = false →
      testAIConnection (some s) (FetchOutcome.thrown msg)
        = TestOut.err 500 ("Connection test failed: " ++ msg)) ∧
    (s.provider = some pOllama →
      testAIConnection (some s) (FetchOutcome.thrown msg)
        = TestOut.err 500 ("Connection test failed: " ++ msg)) ∧
    (s.provider = some pCompat → strFalsy s.apiUrl = false →
      strFalsy s.apiKey = false →
      testAIConnection (some s) (FetchOutcome.thrown msg)
        = TestOut.err 500 ("Connection test failed: " ++ msg)) := by
  refine ⟨?_, ?_, ?_⟩
  · intro hp hk
    simp [testAIConnection, hen, hp, hm, hm0, hk, strFalsy_some, pOpenai,
          pCompat, pOllama]
  · intro hp
    simp [testAIConnection, hen, hp, hm, hm0, strFalsy_some, pOpenai,
          pCompat, pOllama]
  · intro hp hu hk
    simp [testAIConnection, hen, hp, hm, hm0, hu, hk, strFalsy_some, pOpenai,
          pCompat, pOllama]

/-- Witness for `c9_probe_catches`: local provider, fetch rejects. -/
theorem c9_probe_catches_witness :
    (true = true ∧ (some ("llama3") : Option String) = some ("llama3") ∧
     ¬ ("llama3" : String) = "" ∧
     testAIConnection
        (some { enabled := true, provider := some pOllama, model := some ("llama3"),
                apiKey := none, apiUrl := none })
        (FetchOutcome.thrown ("fetch failed"))
       = TestOut.err 500 ("Connection test failed: " ++ "fetch failed")) := by
  refine ⟨rfl, rfl, by decide, ?_⟩
  exact ((c9_probe_catches
    { enabled := true, provider := some pOllama, model := some ("llama3"),
      apiKey := none, apiUrl := none }
    ("fetch failed") ("llama3") rfl rfl (by decide)).2.1 rfl)

/-! ## C10: the normalizer's output is a fixed point of `trim()` -/

/-- C10: for every input (absent included), the Response Normalizer's output
has no leading or trailing whitespace: `trim` fixes `parseAIResponse`'s
result, since every return path either trims its result or returns a fixed
placeholder. -/
theorem c10_trim_fixed (o : Option (List Char)) :
    trimL (parseAIResponse o) = parseAIResponse o := by
  have hph1 : trimL phNoCommand = phNoCommand := by decide
  have hph2 : trimL phNotProper = phNotProper := by decide
  have htp : ∀ c, trimL (tailPart c) = tailPart c := by
    intro c
    unfold tailPart
    by_cases hr : startsWithL rspPat (lowerL c) = true
    · rw [if_pos hr]; exact hph2
    · rw [if_neg hr]
      dsimp only
      rw [rstrip_trim]
      by_cases he : (trimL c).isEmpty = true
      · rw [if_pos he]; exact hph1
      · rw [if_neg he]; exact trim_trim c
  have hrt : ∀ g : List Char, trimL (rstripNl (trimL g)) = rstripNl (trimL g) := by
    intro g
    rw [rstrip_trim]
    exact trim_trim g
  cases o with
  | none => exact hph1
  | some r =>
    unfold parseAIResponse
    dsimp only
    by_cases hre : r.isEmpty = true
    · rw [if_pos hre]; exact hph1
    · rw [if_neg hre]
      cases hf : findResp (cleanOf r) with
      | some g => exact hrt g
      | none =>
        dsimp only
        by_cases hu : startsWithL usrPat (lowerL (cleanOf r)) = true
        · rw [if_pos hu]; exact hph2
        · rw [if_neg hu]
          by_cases hl : 1 < (linesOf (cleanOf r)).length
          · rw [if_pos hl]
            cases hfind : List.find? goodLine (linesOf (cleanOf r)) with
            | some cmd =>
              dsimp only
              by_cases hce : cmd.isEmpty = true
              · rw [if_pos hce]; exact htp _
              · rw [if_neg hce]; exact hrt cmd
            | none => exact htp _
          · rw [if_neg hl]; exact htp _

/-! ## C1: single-line output of the Response Normalizer -/

/-- C1 counterexample: on input `" user: a\nuser: b"` (more than one
nonempty line, all role-labelled, text not itself starting with `user:`)
the normalizer falls through to returning the whole trimmed text, which
contains a newline. -/
theorem c1_counterexample :
    '\n' ∈ parseAIResponse (some ((" user: a\nuser: b").toList)) := by decide

/-- C1 (amended): the Response Normalizer's output contains no newline
*unless* the fence-stripped text has more than one nonempty trimmed line
and every such line begins with a role label (the fall-through case that
returns the whole trimmed text); absent or empty input yields the fixed
diagnostic placeholder command. -/
theorem c1_amended (x : List Char)
    (h : ¬ (1 < (linesOf (cleanOf x)).length ∧
            ∀ l ∈ linesOf (cleanOf x), goodLine l = false)) :
    '\n' ∉ parseAIResponse (some x) ∧
    parseAIResponse none = phNoCommand ∧
    parseAIResponse (some []) = phNoCommand := by
  refine ⟨?_, rfl, rfl⟩
  unfold parseAIResponse
  dsimp only
  by_cases hre : x.isEmpty = true
  · rw [if_pos hre]; decide
  · rw [if_neg hre]
    cases hf : findResp (cleanOf x) with
    | some g =>
      intro hmem
      have hd := findResp_dot hf '\n' (mem_trim (mem_rstrip hmem))
      simp [isDotCh] at hd
    | none =>
      dsimp only
      by_cases hu : startsWithL usrPat (lowerL (cleanOf x)) = true
      · rw [if_pos hu]; decide
      · rw [if_neg hu]
        by_cases hl : 1 < (linesOf (cleanOf x)).length
        · rw [if_pos hl]
          cases hfind : List.find? goodLine (linesOf (cleanOf x)) with
          | some cmd =>
            dsimp only
            have hmemL : cmd ∈ linesOf (cleanOf x) :=
              List.mem_of_find?_eq_some hfind
            have hcm := List.mem_filter.mp hmemL
            obtain ⟨e, he, rfl⟩ := List.mem_map.mp hcm.1
            by_cases hce : (trimL e).isEmpty = true
            · exact absurd hcm.2 (by simp [hce])
            · rw [if_neg hce]
              intro hmem
              exact splitNl_no_nl he (mem_trim (mem_trim (mem_rstrip hmem)))
          | none =>
            have hall := List.find?_eq_none.mp hfind
            refine absurd ⟨hl, fun l hml => ?_⟩ h
            have hnt := hall l hml
            cases hgv : goodLine l
            · rfl
            · rw [hgv] at hnt; exact absurd rfl hnt
        · rw [if_neg hl]
          unfold tailPart
          by_cases hrs : startsWithL rspPat (lowerL (cleanOf x)) = true
          · rw [if_pos hrs]; decide
          · rw [if_neg hrs]
            dsimp only
            by_cases hie : (rstripNl (trimL (cleanOf x))).isEmpty = true
            · rw [if_pos hie]; decide
            · rw [if_neg hie]
              intro hmem
              exact nl_not_mem_trim_of_short (by omega) (mem_rstrip hmem)

/-- Witness for `c1_amended` at a concrete clean input. -/
theorem c1_amended_witness :
    (¬ (1 < (linesOf (cleanOf (("ls -la").toList))).length ∧
        ∀ l ∈ linesOf (cleanOf (("ls -la").toList)), goodLine l = false)) ∧
    '\n' ∉ parseAIResponse (some (("ls -la").toList)) :=
  ⟨by decide, (c1_amended (("ls -la").toList) (by decide)).1⟩

/-! ## C7: idempotence of the normalizer on clean input -/

/-- C7: the Response Normalizer is idempotent on already-clean input: for
every string with no triple-backtick fence and no (case-insensitive)
`user:` or `response:` label substring,
`normalize(normalize(x)) = normalize(x)`. -/
theorem c7_idempotent (x : List Char)
    (h4 : hasSub ticks x = false)
    (h5 : hasSub usrPat (lowerL x) = false)
    (h6 : hasSub rspPat (lowerL x) = false) :
    parseAIResponse (some (parseAIResponse (some x))) = parseAIResponse (some x) := by
  by_cases hre : x.isEmpty = true
  · have hx : parseAIResponse (some x) = phNoCommand := by
      unfold parseAIResponse
      dsimp only
      rw [if_pos hre]
    rw [hx]
    decide
  · have hline : ∀ l ∈ linesOf x, l ≠ [] ∧ trimL l = l ∧ '\n' ∉ l ∧ SubSeg l x := by
      intro l hml
      unfold linesOf at hml
      have hm := List.mem_filter.mp hml
      obtain ⟨e, he, rfl⟩ := List.mem_map.mp hm.1
      refine ⟨by simpa [List.isEmpty_iff] using hm.2, trim_trim e,
              fun hn => splitNl_no_nl he (mem_trim hn),
              subseg_trans (subseg_trim e) (subseg_of_mem_splitNl he)⟩
    have hgood : ∀ l ∈ linesOf x, goodLine l = true := by
      intro l hml
      obtain ⟨-, -, -, hsub⟩ := hline l hml
      have hls : SubSeg (lowerL l) (lowerL x) := subseg_lower hsub
      have hu : hasSub usrPat (lowerL l) = false := hasSub_mono h5 hls
      have hr : hasSub rspPat (lowerL l) = false := hasSub_mono h6 hls
      unfold goodLine
      have hu2 : startsWithL usrPat (lowerL l) = false := by
        cases hv : startsWithL usrPat (lowerL l)
        · rfl
        · rw [startsWith_hasSub hv] at hu; cases hu
      have hr2 : startsWithL rspPat (lowerL l) = false := by
        cases hv : startsWithL rspPat (lowerL l)
        · rfl
        · rw [startsWith_hasSub hv] at hr; cases hr
      rw [hu2, hr2]
      rfl
    have husr : startsWithL usrPat (lowerL x) = false := by
      cases hv : startsWithL usrPat (lowerL x)
      · rfl
      · rw [startsWith_hasSub hv] at h5; cases h5
    have hrsp : startsWithL rspPat (lowerL x) = false := by
      cases hv : startsWithL rspPat (lowerL x)
      · rfl
      · rw [startsWith_hasSub hv] at h6; cases h6
    have hshort : (linesOf x).length ≤ 1 →
        parseAIResponse (some (parseAIResponse (some x))) = parseAIResponse (some x) := by
      intro hlen
      have hparse : parseAIResponse (some x) = tailPart x := by
        unfold parseAIResponse
        dsimp only
        rw [if_neg hre, cleanOf_id h4, findResp_none h6]
        dsimp only
        rw [if_neg (by simp [husr])]
        rw [if_neg (by omega)]
      rw [hparse]
      unfold tailPart
      rw [if_neg (by simp [hrsp])]
      dsimp only
      rw [rstrip_trim]
      by_cases hie : (trimL x).isEmpty = true
      · rw [if_pos hie]
        decide
      · rw [if_neg hie]
        exact parse_clean_fixed (by simpa [List.isEmpty_iff] using hie)
          (trim_trim x) (nl_not_mem_trim_of_short hlen)
          (hasSub_mono h4 (subseg_trim x))
          (hasSub_mono h5 (subseg_lower (subseg_trim x)))
          (hasSub_mono h6 (subseg_lower (subseg_trim x)))
    cases hls : linesOf x with
    | nil => exact hshort (by rw [hls]; simp)
    | cons l0 rest =>
      cases rest with
      | nil => exact hshort (by rw [hls]; simp)
      | cons l1 rest2 =>
        obtain ⟨hl0ne, hl0tr, hl0nl, hl0sub⟩ :=
          hline l0 (by rw [hls]; exact List.mem_cons_self _ _)
        have hparse : parseAIResponse (some x) = l0 := by
          unfold parseAIResponse
          dsimp only
          rw [if_neg hre, cleanOf_id h4, findResp_none h6]
          dsimp only
          rw [if_neg (by simp [husr]), hls]
          rw [if_pos (by simp only [List.length_cons]; omega)]
          rw [List.find?_cons_of_pos _
                (hgood l0 (by rw [hls]; exact List.mem_cons_self _ _))]
          dsimp only
          rw [if_neg (by simpa [List.isEmpty_iff] using hl0ne)]
          rw [rstrip_trim l0, hl0tr]
        rw [hparse]
        exact parse_clean_fixed hl0ne hl0tr hl0nl
          (hasSub_mono h4 hl0sub)
          (hasSub_mono h5 (subseg_lower hl0sub))
          (hasSub_mono h6 (subseg_lower hl0sub))

/-- Witness for `c7_idempotent` at a concrete clean input. -/
theorem c7_idempotent_witness :
    (hasSub ticks (("free -h").toList) = false ∧
     hasSub usrPat (lowerL (("free -h").toList)) = false ∧
     hasSub rspPat (lowerL (("free -h").toList)) = false) ∧
    parseAIResponse (some (parseAIResponse (some (("free -h").toList))))
      = parseAIResponse (some (("free -h").toList)) :=
  ⟨⟨by decide, by decide, by decide⟩,
   c7_idempotent (("free -h").toList) (by decide) (by decide) (by decide)⟩

end NextermAI
